import Mathlib

/-!
Verification of the cf CLI's log tail engine, token refresh scheduler,
relationship JSON codec and CCv3 requester, as shallow Lean embeddings.

The poll loop and seek stage of the tail engine are modelled from the
specification (their implementation lives outside the sources at hand;
only the integration test of the `logs` command is available), while
`ScheduleTokenRefresh`, `Relationship.MarshalJSON`/`UnmarshalJSON` and
`RealRequester.MakeRequest` are embedded directly from the Go sources.
-/

namespace LogTail

/-- Value of a standard base64 alphabet character, 6 bits. -/
def b64Val (c : Char) : Option Nat :=
  if 65 ≤ c.toNat ∧ c.toNat ≤ 90 then some (c.toNat - 65)
  else if 97 ≤ c.toNat ∧ c.toNat ≤ 122 then some (c.toNat - 97 + 26)
  else if 48 ≤ c.toNat ∧ c.toNat ≤ 57 then some (c.toNat - 48 + 52)
  else if c = '+' then some 62
  else if c = '/' then some 63
  else none

/-- Standard base64 decoding of a character list into bytes, processing
four characters (24 bits) at a time, with `=` padding allowed only in the
final group. Mirrors Go's `encoding/base64` `StdEncoding.DecodeString`. -/
def b64DecodeList : List Char → Option (List Nat)
  | [] => some []
  | [a, b, '=', '='] => do
      let va ← b64Val a
      let vb ← b64Val b
      pure [va * 4 + vb / 16]
  | [a, b, c, '='] => do
      let va ← b64Val a
      let vb ← b64Val b
      let vc ← b64Val c
      pure [va * 4 + vb / 16, (vb % 16) * 16 + vc / 4]
  | a :: b :: c :: d :: rest => do
      let va ← b64Val a
      let vb ← b64Val b
      let vc ← b64Val c
      let vd ← b64Val d
      let tail ← b64DecodeList rest
      pure ((va * 4 + vb / 16) :: ((vb % 16) * 16 + vc / 4) :: ((vc % 4) * 64 + vd) :: tail)
  | _ => none

/-- Base64-decode a string; the decoded bytes are read back as characters
(the log payloads at stake are plain ASCII text lines). -/
def base64Decode (s : String) : Option String :=
  (b64DecodeList s.data).map (fun bytes => String.mk (bytes.map Char.ofNat))

/-- One log record as parsed by the cursor fetcher: timestamp in
nanoseconds (the total order and deduplication key), source identifier,
decoded payload line and output type. -/
structure Envelope where
  timestamp : Int
  sourceID : String
  payload : String
  outputType : String
  deriving DecidableEq, Repr

/-- One log-typed envelope as it appears in a store response, before
parsing: the payload is still base64-encoded. -/
structure RawEnvelope where
  timestamp : Int
  source_id : String
  payload : String
  outputType : String
  deriving DecidableEq, Repr

/-- Modelled from the spec: the cursor fetcher's parse of one log-typed
envelope (§4.2; the fetcher implementation is not among the sources).
The base64 payload is decoded before being placed in the Envelope's
`payload` field; a malformed encoding is a decode failure, which is
treated as transport-class (fatal to the query). -/
def parseRawEnvelope (e : RawEnvelope) : Except String Envelope :=
  match base64Decode e.payload with
  | some p => .ok ⟨e.timestamp, e.source_id, p, e.outputType⟩
  | none => .error "illegal base64 data"

/-- Modelled from the spec: parsing one store response batch (§4.2). An
empty batch is a valid, non-error "nothing new" result. -/
def parseBatch : List RawEnvelope → Except String (List Envelope)
  | [] => .ok []
  | e :: rest => do
      let e' ← parseRawEnvelope e
      let rest' ← parseBatch rest
      pure (e' :: rest')

/-- Modelled from the spec: the fixed short interval the poll loop waits
after an empty batch (§4.3 step 5), in nanoseconds. The claims only use
that it is one fixed constant. -/
def pollEmptyDelay : Nat := 500000000

/-- One iteration of the poll loop as observed from outside: the query it
issued (start boundary, with the LOG envelope-type filter), the Cursor
value when the query was issued, the parsed batch the store returned, the
envelopes emitted on the output channel for that batch, and the wait
performed before the next query. -/
structure PollEntry where
  startTime : Int
  envelopeTypes : String
  cursorBefore : Int
  batch : List Envelope
  emitted : List Envelope
  waitAfter : Nat
  deriving DecidableEq, Repr

/-- Modelled from the spec: emission of one batch (§4.3 steps 2-3 and the
edge-case policy). Envelopes are processed in order; an envelope whose
timestamp is not strictly greater than the current Cursor is dropped
defensively, an emitted envelope advances the Cursor to its timestamp
(Cursor = max timestamp seen so far). Returns the emitted envelopes and
the new Cursor. -/
def emitBatch : Int → List Envelope → List Envelope × Int
  | c, [] => ([], c)
  | c, e :: rest =>
      if c < e.timestamp then
        let r := emitBatch e.timestamp rest
        (e :: r.1, r.2)
      else
        emitBatch c rest

/-- Modelled from the spec: the poll loop (§4.3), driven by the sequence
of parsed batches the store returns, one per query. State is the start
boundary of the next query and the Cursor. After a non-empty batch the
next boundary is Cursor + 1 nanosecond (step 4); after an empty batch the
loop waits the fixed delay and reuses the same boundary (step 5). -/
def pollRun : Int → Int → List (List Envelope) → List PollEntry
  | _, _, [] => []
  | b, c, batch :: rest =>
      let r := emitBatch c batch
      let b' := if batch.isEmpty then b else r.2 + 1
      let w := if batch.isEmpty then pollEmptyDelay else 0
      ⟨b, "LOG", c, batch, r.1, w⟩ :: pollRun b' r.2 rest

/-- Modelled from the spec: the whole poll phase after the seek stage
returned timestamp `T` (§4.3 steps 1-2): the first query's start boundary
is `T` minus one second and the Cursor is initialized from `T`. -/
def pollTrace (T : Int) (responses : List (List Envelope)) : List PollEntry :=
  pollRun (T - 1000000000) T responses

/-- All envelopes a poll trace emitted, in emission order. -/
def allEmitted (t : List PollEntry) : List Envelope :=
  (t.map PollEntry.emitted).flatten

/-- Go's `int64` wrap-around, used to express `time.Time{}.UnixNano()`. -/
def goInt64 (n : Int) : Int :=
  (n + 2 ^ 63) % 2 ^ 64 - 2 ^ 63

/-- The "zero instant" start boundary of the seek query: Go's zero
`time.Time` rendered through `UnixNano()`, which wraps around `int64`
(the zero time, year 1, is out of the representable range). The
integration test pins this exact query string. -/
def zeroInstantUnixNano : Int := goInt64 (-62135596800 * 1000000000)

/-- The query the seek stage issues: at most one envelope, newest first,
start boundary at the zero instant. -/
structure SeekQuery where
  startTime : Int
  descending : Bool
  limit : Nat
  deriving DecidableEq, Repr

/-- Modelled from the spec: the one fixed seek query (§4.1). -/
def seekQuery : SeekQuery := ⟨zeroInstantUnixNano, true, 1⟩

/-- Modelled from the spec: the short fixed delay between seek retries
(§4.1), in nanoseconds. The claims only use that it is one fixed
constant. -/
def seekRetryDelay : Nat := 500000000

/-- Observable action of the seek stage: issuing a query or waiting. -/
inductive SeekEvent where
  | query (q : SeekQuery)
  | wait (d : Nat)
  deriving DecidableEq, Repr

/-- Modelled from the spec: the seek stage (§4.1), driven by the sequence
of store responses (`none` = the store returned no envelope yet, `some t`
= the returned newest envelope's timestamp). On an empty response it
waits the fixed delay and retries the identical query, never surfacing
the emptiness as an error; on a non-empty response it returns the
discovered timestamp. Yields the timestamp and the trace of events, or
`none` when the given response prefix never becomes non-empty. -/
def seekRun : List (Option Int) → Option (Int × List SeekEvent)
  | [] => none
  | some t :: _ => some (t, [.query seekQuery])
  | none :: rest =>
      match seekRun rest with
      | some (t, evs) => some (t, .query seekQuery :: .wait seekRetryDelay :: evs)
      | none => none

/-- Whether a seek event is a query. -/
def SeekEvent.isQuery : SeekEvent → Bool
  | .query _ => true
  | .wait _ => false

/-- Number of queries a seek trace issued. -/
def countSeekQueries (evs : List SeekEvent) : Nat :=
  (evs.filter SeekEvent.isQuery).length

end LogTail

namespace TokenRefresh

/-- A parsed JWT as far as `ScheduleTokenRefresh` inspects it: the
expiration claim, absent when `token.Claims().Expiration()` reports
`ok = false`. Times are nanoseconds since epoch (Go `time.Time` /
`time.Duration` resolution). -/
structure Jwt where
  exp : Option Int
  deriving DecidableEq, Repr

/-- Models `strings.TrimPrefix(accessTokenString, "bearer ")`. -/
def stripBearer (s : String) : String :=
  if s.startsWith "bearer " then s.drop 7 else s

/-- Outcome of running the background refresh goroutine for a bounded
number of ticks: either still running, with the absolute times of the
ticks processed so far, or panicked (a panic in a goroutine brings the
whole Go process down) at some tick, with the error's message. -/
inductive LoopOutcome where
  | running (tickTimes : List Int)
  | panicked (tickTimes : List Int) (msg : String)
  deriving DecidableEq, Repr

/-- The tick times recorded in a loop outcome. -/
def LoopOutcome.tickTimes : LoopOutcome → List Int
  | .running ts => ts
  | .panicked ts _ => ts

/-- The background goroutine of `ScheduleTokenRefresh`, run for `fuel`
ticks, `k` ticks having already fired. The ticker is created once with
the fixed period `d` (`time.NewTicker(timeToRefresh)`) and is never
reset, so the (k+1)-th tick fires at `t0 + (k+1)*d`. On each tick the
loop calls `RefreshAccessToken` (call number k+1; call 0 was the initial
refresh) and panics if it errors; the refreshed token's expiry is never
inspected. -/
def refreshLoop (t0 d : Int) (refresh : Nat → Except String String) :
    Nat → Nat → LoopOutcome
  | _, 0 => .running []
  | k, fuel + 1 =>
      let tickTime := t0 + (k + 1) * d
      match refresh (k + 1) with
      | .error e => .panicked [tickTime] e
      | .ok _ =>
          match refreshLoop t0 d refresh (k + 1) fuel with
          | .running ts => .running (tickTime :: ts)
          | .panicked ts e => .panicked (tickTime :: ts) e

/-- Embedding of `Actor.ScheduleTokenRefresh` from the source. `now` is the
current instant, `refresh k` the result of the k-th call to
`RefreshAccessToken` (call 0 is the initial one, calls 1, 2, ... are the
in-loop ones), `parseJWT` the result of `jws.ParseJWT` on a given token
string, and `nTicks` bounds how far the unbounded background loop is
observed. Returns the computed `timeToRefresh` and the loop outcome, or
the error the call itself returns. -/
def ScheduleTokenRefresh (now : Int) (refresh : Nat → Except String String)
    (parseJWT : String → Except String Jwt) (nTicks : Nat) :
    Except String (Int × LoopOutcome) :=
  match refresh 0 with
  | .error err => .error err
  | .ok accessTokenString =>
      match parseJWT (stripBearer accessTokenString) with
      | .error err => .error err
      | .ok token =>
          match token.exp with
          | some expiration =>
              let expiresIn := expiration - now
              let timeToRefresh := Int.tdiv (expiresIn * 9) 10
              .ok (timeToRefresh, refreshLoop now timeToRefresh refresh 0 nTicks)
          | none => .error "Failed to get an expiry time from the current access token"

end TokenRefresh



namespace CCV3

/-- The fragment of JSON the relationship codec produces and consumes. -/
inductive Json where
  | null
  | str (s : String)
  | num (n : Int)
  | obj (fields : List (String × Json))
  deriving Repr

/-- Relationship represents a one to one relationship. -/
structure Relationship where
  GUID : String
  deriving DecidableEq, Repr

/-- Embedding of `Relationship.MarshalJSON`: an empty GUID is marshaled as a `data`
field holding `null` (the zero `interface{}`), a non-empty GUID as a
`data` object with a `guid` field. -/
def Relationship.MarshalJSON (r : Relationship) : Json :=
  if r.GUID = "" then
    .obj [("data", .null)]
  else
    .obj [("data", .obj [("guid", .str r.GUID)])]

/-- First binding of a field name in a JSON object, as Go's decoder
resolves field names. -/
def jsonLookup : List (String × Json) → String → Option Json
  | [], _ => none
  | (k, v) :: rest, key => if k = key then some v else jsonLookup rest key

/-- Embedding of `Relationship.UnmarshalJSON`, following Go `encoding/json` semantics
for decoding into `struct { Data struct { GUID string } }`: a missing or
`null` field leaves the corresponding zero value (empty string), a type
mismatch is an error. -/
def Relationship.UnmarshalJSON (j : Json) : Except String Relationship :=
  match j with
  | .null => .ok ⟨""⟩
  | .obj fields =>
      match jsonLookup fields "data" with
      | none => .ok ⟨""⟩
      | some .null => .ok ⟨""⟩
      | some (.obj dataFields) =>
          match jsonLookup dataFields "guid" with
          | none => .ok ⟨""⟩
          | some (.str s) => .ok ⟨s⟩
          | some _ => .error "json: cannot unmarshal into field guid of type string"
      | some _ => .error "json: cannot unmarshal into field data"
  | _ => .error "json: cannot unmarshal into relationship"

/-- What one execution of `Connection.Make` deposits into the passed
`cloudcontroller.Response` and returns: the resource location URL, the
warnings, and the error (`none` on success). -/
structure ExchangeResult where
  resourceLocationURL : String
  warnings : List String
  err : Option String
  deriving DecidableEq, Repr

/-- The pending results of the underlying HTTP connection, consumed one
per execution of `Connection.Make`. -/
def ConnState := List ExchangeResult

/-- Embedding of `Connection.Make`: performs the next HTTP exchange, consuming one
pending result. An exhausted oracle yields a distinguished transport
failure. -/
def connectionMake : ConnState → ExchangeResult × ConnState
  | [] => (⟨"", [], some "connection: no response"⟩, [])
  | r :: rest => (r, rest)

/-- What `MakeRequest` returns to its caller: job URL, warnings, error. -/
structure RequestOutcome where
  jobURL : String
  warnings : List String
  err : Option String
  deriving DecidableEq, Repr

/-- Embedding of `RealRequester.GetSingleResponse` from the source: builds a
fresh `cloudcontroller.Response`, executes `Connection.Make` once, and
returns the job URL, warnings and error of that exchange. -/
def GetSingleResponse (s : ConnState) : RequestOutcome × ConnState :=
  let r := connectionMake s
  (⟨r.1.resourceLocationURL, r.1.warnings, r.1.err⟩, r.2)

/-- Embedding of `RealRequester.MakeRequest` from the source. `buildErr`
models a failure of `json.Marshal` of the body or of `NewHTTPRequest`
(in which case the call returns early, before any exchange). Otherwise
the code executes `Connection.Make` once, discarding its error and its
response, and then returns `GetSingleResponse`, which executes the same
request a second time and whose results are the ones returned. -/
def MakeRequest (buildErr : Option String) (s : ConnState) :
    RequestOutcome × ConnState :=
  match buildErr with
  | some e => (⟨"", [], some e⟩, s)
  | none =>
      let first := connectionMake s
      GetSingleResponse first.2

end CCV3

namespace TokenRefresh

theorem refreshLoop_head (t0 d : Int) (refresh : Nat → Except String String) (k m : Nat) :
    (refreshLoop t0 d refresh k (m + 1)).tickTimes.head? = some (t0 + (k + 1) * d) := by
  unfold refreshLoop
  cases h : refresh (k + 1) with
  | error e => simp [LoopOutcome.tickTimes]
  | ok s =>
      cases h2 : refreshLoop t0 d refresh (k + 1) m with
      | running ts => simp [h2, LoopOutcome.tickTimes]
      | panicked ts e => simp [h2, LoopOutcome.tickTimes]

theorem refreshLoop_running (t0 d : Int) (refresh : Nat → Except String String)
    (m : Nat) : ∀ k : Nat, (∀ j : Nat, k < j → j ≤ k + m → (refresh j).isOk) →
    refreshLoop t0 d refresh k m =
      .running ((List.range m).map fun i : Nat => t0 + ((k : Int) + (i : Int) + 1) * d) := by
  induction m with
  | zero => intro k _; simp [refreshLoop]
  | succ n ih =>
      intro k hok
      have h1 : (refresh (k + 1)).isOk := hok (k + 1) (Nat.lt_succ_self k) (by omega)
      unfold refreshLoop
      cases h : refresh (k + 1) with
      | error e => rw [h] at h1; simp [Except.isOk, Except.toBool] at h1
      | ok s =>
          have h2 := ih (k + 1) (fun j hj hj2 => hok j (by omega) (by omega))
          rw [h2]
          refine congrArg LoopOutcome.running ?_
          rw [List.range_succ_eq_map, List.map_cons, List.map_map]
          refine List.cons_eq_cons.mpr ⟨by push_cast; ring, ?_⟩
          apply List.map_congr_left
          intro i _
          simp only [Function.comp_apply]
          push_cast
          ring

end TokenRefresh

namespace LogTail

theorem emitBatch_cursor_le (l : List Envelope) : ∀ c : Int, c ≤ (emitBatch c l).2 := by
  induction l with
  | nil => intro c; simp [emitBatch]
  | cons e rest ih =>
      intro c
      by_cases h : c < e.timestamp
      · simp only [emitBatch, if_pos h]
        exact le_of_lt (lt_of_lt_of_le h (ih e.timestamp))
      · simp only [emitBatch, if_neg h]
        exact ih c

theorem emitBatch_mem (l : List Envelope) : ∀ c : Int, ∀ e ∈ (emitBatch c l).1,
    c < e.timestamp ∧ e.timestamp ≤ (emitBatch c l).2 := by
  induction l with
  | nil => intro c e he; simp [emitBatch] at he
  | cons a rest ih =>
      intro c e he
      by_cases h : c < a.timestamp
      · simp only [emitBatch, if_pos h] at he ⊢
        rcases List.mem_cons.mp he with rfl | he
        · exact ⟨h, emitBatch_cursor_le rest e.timestamp⟩
        · obtain ⟨h1, h2⟩ := ih a.timestamp e he
          exact ⟨lt_trans h h1, h2⟩
      · simp only [emitBatch, if_neg h] at he ⊢
        exact ih c e he

theorem emitBatch_chain (l : List Envelope) : ∀ c : Int,
    List.Chain' (fun a b => a.timestamp < b.timestamp) (emitBatch c l).1 := by
  induction l with
  | nil => intro c; simp [emitBatch]
  | cons a rest ih =>
      intro c
      by_cases h : c < a.timestamp
      · simp only [emitBatch, if_pos h]
        refine List.chain'_cons'.mpr ⟨?_, ih a.timestamp⟩
        intro y hy
        exact (emitBatch_mem rest a.timestamp y (List.mem_of_mem_head? hy)).1
      · simp only [emitBatch, if_neg h]
        exact ih c

theorem pollRun_head (b c : Int) (rs : List (List Envelope)) :
    ∀ y ∈ (pollRun b c rs).head?, y.startTime = b ∧ y.cursorBefore = c := by
  cases rs <;> simp [pollRun]

theorem pollRun_inv (rs : List (List Envelope)) : ∀ b c : Int, c < b →
    ∀ x ∈ pollRun b c rs, x.cursorBefore < x.startTime := by
  induction rs with
  | nil => intro b c _ x hx; simp [pollRun] at hx
  | cons r rest ih =>
      intro b c h x hx
      simp only [pollRun, List.mem_cons] at hx
      rcases hx with rfl | hx
      · exact h
      · by_cases hr : r.isEmpty
        · obtain rfl : r = [] := List.isEmpty_iff.mp hr
          simp only [List.isEmpty_nil, if_true, emitBatch] at hx
          exact ih b c h x hx
        · simp only [hr, if_false, Bool.false_eq_true] at hx
          exact ih _ _ (lt_add_one _) x hx

theorem pollRun_after_nonempty (rs : List (List Envelope)) : ∀ b c : Int,
    ∀ i j : Fin (pollRun b c rs).length, j.val < i.val →
    ((pollRun b c rs).get j).batch ≠ [] →
    ((pollRun b c rs).get i).cursorBefore < ((pollRun b c rs).get i).startTime := by
  induction rs with
  | nil => intro b c i j _ _; exact absurd i.isLt (by simp [pollRun])
  | cons r rest ih =>
      intro b c i j hji hbatch
      obtain ⟨iv, hi⟩ := i
      obtain ⟨jv, hj⟩ := j
      have hji' : jv < iv := hji
      cases iv with
      | zero => omega
      | succ iv' =>
          have hi' : iv' < (pollRun (if r.isEmpty then b else (emitBatch c r).2 + 1)
              (emitBatch c r).2 rest).length := by
            have := hi
            simpa [pollRun] using this
          have hget : ((pollRun b c (r :: rest)).get ⟨iv' + 1, hi⟩) =
              ((pollRun (if r.isEmpty then b else (emitBatch c r).2 + 1)
                (emitBatch c r).2 rest).get ⟨iv', hi'⟩) := rfl
          rw [hget]
          cases jv with
          | zero =>
              have hr : r ≠ [] := by
                intro hrnil
                apply hbatch
                subst hrnil
                rfl
              have hrE : r.isEmpty = false := by
                simpa [List.isEmpty_iff] using hr
              have hlt : (emitBatch c r).2 < (if r.isEmpty then b else (emitBatch c r).2 + 1) := by
                rw [hrE]
                simp
              exact pollRun_inv rest _ _ hlt _ (List.get_mem _ _ _)
          | succ jv' =>
              have hj' : jv' < (pollRun (if r.isEmpty then b else (emitBatch c r).2 + 1)
                  (emitBatch c r).2 rest).length := by
                have := hj
                simpa [pollRun] using this
              have hgetj : ((pollRun b c (r :: rest)).get ⟨jv' + 1, hj⟩) =
                  ((pollRun (if r.isEmpty then b else (emitBatch c r).2 + 1)
                    (emitBatch c r).2 rest).get ⟨jv', hj'⟩) := rfl
              rw [hgetj] at hbatch
              exact ih _ _ ⟨iv', hi'⟩ ⟨jv', hj'⟩ (by simp only [Fin.val]; omega) hbatch

theorem pollRun_entry_emitted (rs : List (List Envelope)) : ∀ b c : Int,
    ∀ x ∈ pollRun b c rs, ∀ e ∈ x.emitted, x.cursorBefore < e.timestamp := by
  induction rs with
  | nil => intro b c x hx; simp [pollRun] at hx
  | cons r rest ih =>
      intro b c x hx e he
      simp only [pollRun, List.mem_cons] at hx
      rcases hx with rfl | hx
      · exact (emitBatch_mem r c e he).1
      · exact ih _ _ x hx e he

theorem pollRun_emitted (rs : List (List Envelope)) : ∀ b c : Int,
    (∀ e ∈ allEmitted (pollRun b c rs), c < e.timestamp)
    ∧ List.Chain' (fun a b => a.timestamp < b.timestamp) (allEmitted (pollRun b c rs)) := by
  induction rs with
  | nil => intro b c; simp [pollRun, allEmitted]
  | cons r rest ih =>
      intro b c
      have hall : allEmitted (pollRun b c (r :: rest)) =
          (emitBatch c r).1 ++ allEmitted (pollRun (if r.isEmpty then b
            else (emitBatch c r).2 + 1) (emitBatch c r).2 rest) := by
        simp [pollRun, allEmitted]
      rw [hall]
      constructor
      · intro e he
        rcases List.mem_append.mp he with he | he
        · exact (emitBatch_mem r c e he).1
        · exact lt_of_le_of_lt (emitBatch_cursor_le r c) ((ih _ _).1 e he)
      · refine List.chain'_append.mpr ⟨emitBatch_chain r c, (ih _ _).2, ?_⟩
        intro x hx y hy
        have hx' := (emitBatch_mem r c x (List.mem_of_mem_getLast? hx)).2
        have hy' := (ih (if r.isEmpty then b else (emitBatch c r).2 + 1)
          (emitBatch c r).2).1 y (List.mem_of_mem_head? hy)
        exact lt_of_le_of_lt hx' hy'

theorem pollRun_empty_chain (rs : List (List Envelope)) : ∀ b c : Int,
    List.Chain' (fun x y => x.batch = [] →
      y.startTime = x.startTime ∧ y.cursorBefore = x.cursorBefore) (pollRun b c rs) := by
  induction rs with
  | nil => intro b c; simp [pollRun]
  | cons r rest ih =>
      intro b c
      simp only [pollRun]
      refine List.chain'_cons'.mpr ⟨?_, ih _ _⟩
      intro y hy hbatch
      have hr : r = [] := hbatch
      subst hr
      have := pollRun_head (if ([] : List Envelope).isEmpty then b
        else (emitBatch c []).2 + 1) (emitBatch c []).2 rest y hy
      simpa [emitBatch] using this

theorem pollRun_empty_wait (rs : List (List Envelope)) : ∀ b c : Int,
    ∀ x ∈ pollRun b c rs, x.batch = [] →
      x.waitAfter = pollEmptyDelay ∧ x.emitted = [] := by
  induction rs with
  | nil => intro b c x hx; simp [pollRun] at hx
  | cons r rest ih =>
      intro b c x hx hbatch
      simp only [pollRun, List.mem_cons] at hx
      rcases hx with rfl | hx
      · have hr : r = [] := hbatch
        subst hr
        exact ⟨rfl, rfl⟩
      · exact ih _ _ x hx hbatch

end LogTail

namespace Claims

open LogTail TokenRefresh CCV3

/-- Claim C4 (confirmed): `ScheduleTokenRefresh` computes its wake-up
delay as exactly 90% of the remaining time-to-expiry of the token
obtained by the initial refresh, by the integer duration arithmetic
`expiresIn * 9 / 10`; for a token whose expiry is `expiration - now`
away, the first scheduled refresh tick occurs at `now + timeToRefresh`. -/
theorem c4_ninety_percent_delay (now expiration : Int)
    (refresh : Nat → Except String String) (parseJWT : String → Except String Jwt)
    (nTicks : Nat) (s : String)
    (h0 : refresh 0 = .ok s) (h1 : parseJWT (stripBearer s) = .ok ⟨some expiration⟩) :
    ScheduleTokenRefresh now refresh parseJWT nTicks =
      .ok (Int.tdiv ((expiration - now) * 9) 10,
           refreshLoop now (Int.tdiv ((expiration - now) * 9) 10) refresh 0 nTicks)
    ∧ (1 ≤ nTicks →
        (refreshLoop now (Int.tdiv ((expiration - now) * 9) 10) refresh 0
            nTicks).tickTimes.head? =
          some (now + Int.tdiv ((expiration - now) * 9) 10)) := by
  constructor
  · simp [ScheduleTokenRefresh, h0, h1, Except.bind, pure, Except.pure]
  · intro hn
    obtain ⟨m, rfl⟩ : ∃ m, nTicks = m + 1 := ⟨nTicks - 1, by omega⟩
    rw [refreshLoop_head]
    simp

/-- Witness for C4 at a concrete input: a token expiring 1000ns from
`now = 0` schedules the first refresh at 900ns. -/
theorem c4_ninety_percent_delay_witness :
    ScheduleTokenRefresh 0 (fun _ => .ok "tok") (fun _ => .ok ⟨some 1000⟩) 1 =
      .ok (900, refreshLoop 0 900 (fun _ => .ok "tok") 0 1)
    ∧ (refreshLoop 0 900 (fun _ => .ok "tok") 0 1).tickTimes.head? = some 900 := by
  have h := c4_ninety_percent_delay 0 1000 (fun _ => .ok "tok")
    (fun _ => .ok ⟨some 1000⟩) 1 "tok" rfl rfl
  exact ⟨h.1, by simpa using h.2 (by omega)⟩

/-- Claim C8 (confirmed): when the expiration claim cannot be determined
from the freshly refreshed access token, `ScheduleTokenRefresh` returns
the fatal error "Failed to get an expiry time from the current access
token"; the call errors out before the background loop is ever started. -/
theorem c8_no_expiry_fatal (now : Int)
    (refresh : Nat → Except String String) (parseJWT : String → Except String Jwt)
    (nTicks : Nat) (s : String)
    (h0 : refresh 0 = .ok s) (h1 : parseJWT (stripBearer s) = .ok ⟨none⟩) :
    ScheduleTokenRefresh now refresh parseJWT nTicks =
      .error "Failed to get an expiry time from the current access token" := by
  simp [ScheduleTokenRefresh, h0, h1, Except.bind, pure, Except.pure]

/-- Witness for C8 at a concrete input. -/
theorem c8_no_expiry_fatal_witness :
    ScheduleTokenRefresh 0 (fun _ => .ok "tok") (fun _ => .ok ⟨none⟩) 3 =
      .error "Failed to get an expiry time from the current access token" :=
  c8_no_expiry_fatal 0 (fun _ => .ok "tok") (fun _ => .ok ⟨none⟩) 3 "tok" rfl rfl

/-- Claim C2 is false on the code: the background loop's ticker is
created once with the initially computed period and is never updated, so
the refresh at the second tick happens one original period after the
first, not at 90% of the refreshed token's remaining time-to-expiry.
Concretely: with `now = 0` and an initial token expiring at 1000, the
period is 900; the token obtained by the refresh at tick 1 (time 900)
expires at 10000, so rescheduling from it would place the next refresh at
`900 + (10000 - 900) * 9 / 10 = 9090`, but the second tick occurs at
1800. -/
theorem c2_counterexample :
    ScheduleTokenRefresh 0 (fun k => if k = 0 then .ok "tok0" else .ok "tok1")
        (fun s => if s = "tok0" then .ok ⟨some 1000⟩ else .ok ⟨some 10000⟩) 2 =
      .ok (900, .running [900, 1800])
    ∧ 900 + Int.tdiv ((10000 - 900) * 9) 10 = 9090
    ∧ (1800 : Int) ≠ 9090 := by
  refine ⟨rfl, by decide, by decide⟩

/-- Claim C2 (amended): on every tick of its repeating timer the loop
refreshes the credential, but the next refresh is always scheduled
exactly one originally computed period later — the ticker keeps the
period computed from the initial token and the refreshed tokens' expiries
are never decoded: the tick times depend only on the start instant and
that one period, not on the in-loop refresh results. -/
theorem c2_amended_fixed_period (now expiration : Int)
    (refresh : Nat → Except String String) (parseJWT : String → Except String Jwt)
    (nTicks : Nat) (s : String)
    (h0 : refresh 0 = .ok s) (h1 : parseJWT (stripBearer s) = .ok ⟨some expiration⟩)
    (hok : ∀ j : Nat, 1 ≤ j → j ≤ nTicks → (refresh j).isOk) :
    ScheduleTokenRefresh now refresh parseJWT nTicks =
      .ok (Int.tdiv ((expiration - now) * 9) 10,
        .running ((List.range nTicks).map fun i : Nat =>
          now + ((i : Int) + 1) * Int.tdiv ((expiration - now) * 9) 10)) := by
  have hrun := refreshLoop_running now (Int.tdiv ((expiration - now) * 9) 10) refresh
    nTicks 0 (fun j hj hj2 => hok j (by omega) (by omega))
  simp only [ScheduleTokenRefresh, h0, h1, Except.bind]
  simp only [hrun, Nat.cast_zero, zero_add]

/-- Witness for the amended C2 at a concrete input: two ticks at 900 and
1800. -/
theorem c2_amended_fixed_period_witness :
    ScheduleTokenRefresh 0 (fun k => if k = 0 then .ok "tok0" else .ok "tok1")
        (fun s => if s = "tok0" then .ok ⟨some 1000⟩ else .ok ⟨some 10000⟩) 2 =
      .ok (900, .running ((List.range 2).map fun i : Nat => 0 + ((i : Int) + 1) * 900)) := by
  have h := c2_amended_fixed_period 0 1000
    (fun k => if k = 0 then .ok "tok0" else .ok "tok1")
    (fun s => if s = "tok0" then .ok ⟨some 1000⟩ else .ok ⟨some 10000⟩)
    2 "tok0" rfl rfl (fun j hj hj2 => by
      have : j ≠ 0 := by omega
      simp [this, Except.isOk, Except.toBool])
  exact h

/-- Claim C3 is about intent the code does not meet: an in-loop refresh
failure makes the background goroutine `panic(err)`, which tears down the
whole Go process; evaluated at a failing input, the loop outcome is a
panic carrying the refresh error, not a signalled stop. -/
theorem c3_panic_eval :
    ScheduleTokenRefresh 0
        (fun k => if k = 0 then .ok "tok0" else .error "invalid_token: refresh token expired")
        (fun _ => .ok ⟨some 1000⟩) 1 =
      .ok (900, .panicked [900] "invalid_token: refresh token expired") := rfl

/-- Claim C9 (confirmed): unmarshaling the JSON produced by marshaling a
`Relationship` yields the same `Relationship` again; a `Relationship`
with an empty GUID marshals to an object whose `data` field is `null`,
and unmarshaling that object yields the empty GUID. -/
theorem c9_relationship_roundtrip (r : Relationship) :
    Relationship.UnmarshalJSON (Relationship.MarshalJSON r) = Except.ok r
    ∧ Relationship.MarshalJSON ⟨""⟩ = Json.obj [("data", Json.null)]
    ∧ Relationship.UnmarshalJSON (Json.obj [("data", Json.null)]) = Except.ok ⟨""⟩ := by
  refine ⟨?_, rfl, rfl⟩
  obtain ⟨g⟩ := r
  by_cases h : g = ""
  · subst h
    rfl
  · simp [Relationship.MarshalJSON, h, Relationship.UnmarshalJSON, jsonLookup]

/-- Claim C10 (confirmed): with the request successfully built,
`RealRequester.MakeRequest` executes the underlying HTTP exchange twice —
once directly and once inside `GetSingleResponse` (two pending exchange
results are consumed) — and the job URL, warnings and error it returns
are those of the second exchange; the first exchange's results do not
appear in the outcome. -/
theorem c10_make_request_double_exchange (first second : ExchangeResult)
    (rest : List ExchangeResult) :
    MakeRequest none (first :: second :: rest) =
      (⟨second.resourceLocationURL, second.warnings, second.err⟩, rest) := rfl

/-- Claim C1 is false as stated: with the Cursor initialized from the
seek timestamp `T` and the first boundary `T` minus one second, a query
re-issued after an initial empty batch still carries the boundary
`T - 1s`, which is not strictly greater than the Cursor `T`. Concretely,
with `T = 2000000000` and two empty batches, the second query has
start_time 1000000000 while the Cursor is 2000000000. -/
theorem c1_counterexample :
    ¬ (∀ (T : Int) (rs : List (List Envelope)) (i : Fin (pollTrace T rs).length),
        0 < i.val →
        ((pollTrace T rs).get i).cursorBefore < ((pollTrace T rs).get i).startTime) := by
  intro h
  have h2 := h 2000000000 [[], []] ⟨1, by decide⟩ (by decide)
  have h3 : ¬ (((pollTrace 2000000000 [[], []]).get ⟨1, by decide⟩).cursorBefore <
      ((pollTrace 2000000000 [[], []]).get ⟨1, by decide⟩).startTime) := by decide
  exact h3 h2

/-- Claim C1 (amended): every query issued after some earlier query
returned a non-empty batch carries a start boundary strictly greater than
the Cursor (only queries re-issued while the store has returned nothing
yet reuse the initial `T - 1s` boundary); and unconditionally, for any
sequence of store responses, every emitted envelope has a timestamp
strictly greater than the Cursor at its emission, the emitted timestamps
are strictly increasing, and no two emitted envelopes share a timestamp —
no envelope is delivered twice. -/
theorem c1_amended (T : Int) (rs : List (List Envelope)) :
    (∀ i j : Fin (pollTrace T rs).length, j.val < i.val →
      ((pollTrace T rs).get j).batch ≠ [] →
      ((pollTrace T rs).get i).cursorBefore < ((pollTrace T rs).get i).startTime)
    ∧ (∀ x ∈ pollTrace T rs, ∀ e ∈ x.emitted, x.cursorBefore < e.timestamp)
    ∧ List.Chain' (fun a b => a.timestamp < b.timestamp) (allEmitted (pollTrace T rs))
    ∧ ((allEmitted (pollTrace T rs)).map Envelope.timestamp).Pairwise (· ≠ ·) := by
  refine ⟨fun i j => pollRun_after_nonempty rs _ _ i j,
    pollRun_entry_emitted rs _ _, (pollRun_emitted rs _ _).2, ?_⟩
  have hc := (pollRun_emitted rs (T - 1000000000) T).2
  have hmap : List.Chain' (· < ·) ((allEmitted (pollTrace T rs)).map Envelope.timestamp) :=
    List.chain'_map_of_chain' Envelope.timestamp (fun a b h => h) hc
  have hp : ((allEmitted (pollTrace T rs)).map Envelope.timestamp).Pairwise (· < ·) :=
    List.chain'_iff_pairwise.mp hmap
  exact hp.imp ne_of_lt

/-- Witness for the amended C1: in the end-to-end run, the query issued
after the non-empty batch carries a boundary strictly above the Cursor. -/
theorem c1_amended_witness :
    ((pollTrace 1581447006352020890
        [[⟨1581447009352020890, "app", "hello", "OUT"⟩], []]).get ⟨1, by decide⟩).cursorBefore <
      ((pollTrace 1581447006352020890
        [[⟨1581447009352020890, "app", "hello", "OUT"⟩], []]).get ⟨1, by decide⟩).startTime :=
  (c1_amended 1581447006352020890 [[⟨1581447009352020890, "app", "hello", "OUT"⟩], []]).1
    ⟨1, by decide⟩ ⟨0, by decide⟩ (by decide) (by decide)


/-- Claim C5 (confirmed, end-to-end): after the seek stage returns
`T = 1581447006352020890`, the first poll query uses
`start_time = T - 1s = 1581447005352020890` with the LOG envelope-type
filter; the log envelope's base64 payload
"aGVsbG8gZnJvbSBsb2ctY2FjaGU=" is decoded to the line
"hello from log-cache" before emission; and the query following the
emission uses `start_time` = the emitted timestamp plus one nanosecond,
1581447009352020891. -/
theorem c5_end_to_end :
    parseBatch [⟨1581447009352020890, "d5d27772-315f-474b-8673-57e34ce2db2c",
        "aGVsbG8gZnJvbSBsb2ctY2FjaGU=", "OUT"⟩] =
      Except.ok [⟨1581447009352020890, "d5d27772-315f-474b-8673-57e34ce2db2c",
        "hello from log-cache", "OUT"⟩]
    ∧ pollTrace 1581447006352020890
        [[⟨1581447009352020890, "d5d27772-315f-474b-8673-57e34ce2db2c",
          "hello from log-cache", "OUT"⟩], []] =
      [⟨1581447005352020890, "LOG", 1581447006352020890,
        [⟨1581447009352020890, "d5d27772-315f-474b-8673-57e34ce2db2c",
          "hello from log-cache", "OUT"⟩],
        [⟨1581447009352020890, "d5d27772-315f-474b-8673-57e34ce2db2c",
          "hello from log-cache", "OUT"⟩], 0⟩,
       ⟨1581447009352020891, "LOG", 1581447009352020890, [], [], pollEmptyDelay⟩] :=
  ⟨rfl, rfl⟩

/-- Claim C6 (confirmed): given N consecutive empty seek responses
followed by one non-empty response carrying timestamp `t`, the seek stage
issues exactly N+1 identical descending limit-1 queries with start
boundary at the zero instant, waits the fixed delay between consecutive
queries, and returns `t` (the emptiness never surfaces as an error). -/
theorem c6_seek_retries (N : Nat) (t : Int) :
    seekRun (List.replicate N none ++ [some t]) =
      some (t, (List.replicate N
          [SeekEvent.query seekQuery, SeekEvent.wait seekRetryDelay]).flatten
        ++ [SeekEvent.query seekQuery])
    ∧ countSeekQueries ((List.replicate N
          [SeekEvent.query seekQuery, SeekEvent.wait seekRetryDelay]).flatten
        ++ [SeekEvent.query seekQuery]) = N + 1
    ∧ (∀ q : SeekQuery, SeekEvent.query q ∈ (List.replicate N
          [SeekEvent.query seekQuery, SeekEvent.wait seekRetryDelay]).flatten
        ++ [SeekEvent.query seekQuery] → q = seekQuery) := by
  refine ⟨?_, ?_, ?_⟩
  · induction N with
    | zero => simp [seekRun]
    | succ n ih =>
        have hstep : seekRun (List.replicate (n + 1) none ++ [some t]) =
            match seekRun (List.replicate n none ++ [some t]) with
            | some (u, evs) =>
                some (u, SeekEvent.query seekQuery :: SeekEvent.wait seekRetryDelay :: evs)
            | none => none := rfl
        rw [hstep, ih]
        simp [List.replicate_succ]
  · induction N with
    | zero => simp [countSeekQueries, SeekEvent.isQuery]
    | succ n ih =>
        simp only [List.replicate_succ, List.flatten_cons, List.cons_append,
          countSeekQueries, List.filter_append, List.filter_cons,
          SeekEvent.isQuery] at ih ⊢
        simp at ih ⊢
        omega
  · intro q hq
    rcases List.mem_append.mp hq with hq | hq
    · obtain ⟨l, hl, hql⟩ := List.mem_flatten.mp hq
      have hrep := List.eq_of_mem_replicate hl
      subst hrep
      simp at hql
      exact hql
    · simp at hq
      exact hq

/-- Witness for C6 at a concrete input: two empty responses then a
response with timestamp 42 yield three identical queries and the result
42. -/
theorem c6_seek_retries_witness :
    seekRun (List.replicate 2 none ++ [some 42]) =
      some (42, (List.replicate 2
          [SeekEvent.query seekQuery, SeekEvent.wait seekRetryDelay]).flatten
        ++ [SeekEvent.query seekQuery])
    ∧ countSeekQueries ((List.replicate 2
          [SeekEvent.query seekQuery, SeekEvent.wait seekRetryDelay]).flatten
        ++ [SeekEvent.query seekQuery]) = 2 + 1 := by
  have h := c6_seek_retries 2 42
  exact ⟨h.1, h.2.1⟩

/-- Claim C7 (confirmed): whenever a poll query returns an empty batch,
nothing is emitted, the loop waits the fixed short interval, and the next
query is issued with the same start boundary and the same (unchanged)
Cursor as the query that produced the empty batch; an empty response
parses as a valid empty batch, not an error. -/
theorem c7_empty_batch (T : Int) (rs : List (List Envelope)) :
    List.Chain' (fun x y => x.batch = [] →
      y.startTime = x.startTime ∧ y.cursorBefore = x.cursorBefore) (pollTrace T rs)
    ∧ (∀ x ∈ pollTrace T rs, x.batch = [] →
        x.waitAfter = pollEmptyDelay ∧ x.emitted = [])
    ∧ parseBatch [] = Except.ok [] :=
  ⟨pollRun_empty_chain rs _ _, pollRun_empty_wait rs _ _, rfl⟩

/-- Witness for C7 at a concrete input: the first empty-batch entry of a
run waits the fixed delay and emits nothing. -/
theorem c7_empty_batch_witness :
    ((pollTrace 2000000000 [[], []]).get ⟨0, by decide⟩).waitAfter = pollEmptyDelay ∧
    ((pollTrace 2000000000 [[], []]).get ⟨0, by decide⟩).emitted = [] :=
  (c7_empty_batch 2000000000 [[], []]).2.1 _ (List.get_mem _ _ _) (by decide)

end Claims
